import Mathlib

/-!
Verification of the INTERSECT instrument-controller simulator
(`contract-test-scaffold/simulator/python/app/main.py`).

The simulator keeps an in-memory registry of activities, an incrementing
activity-id counter and a FIFO queue of emitted events.  Each started
activity spawns a two-step timed task (`run` in the source); its two steps,
the explicit cancel command and the queries are embedded below as pure
state-transition functions.  A trace is a list of operations applied from
the initial state; the position of each activity's spawned task is recorded
in the `runPhase` field (0 = first step pending, 1 = second step pending,
2 = the task has finished), which models the asyncio task's program counter.
Wall-clock instants are abstract integers supplied to each operation.
-/

namespace Simulator

/-! ### Decimal rendering

The source renders the activity counter with the format string
`f"act_{n:04d}"` and draws product identifiers from `uuid.uuid4()`.
Decimal rendering is embedded structurally (fuel recursion on the number)
so that it evaluates in the kernel; `decodeDigits` is its inverse, used to
prove injectivity (uniqueness of the rendered identifier). -/

def decDigitsAux : Nat → Nat → List Nat
  | _, 0 => []
  | 0, _ => []
  | fuel + 1, n + 1 => decDigitsAux fuel ((n + 1) / 10) ++ [(n + 1) % 10]

/-- Big-endian decimal digits of `n` (empty for `n = 0`, as in `str` minus
the leading output of zero padding). -/
def decDigits (n : Nat) : List Nat := decDigitsAux n n

/-- Zero padding to (at least) width 4, as Python's `{n:04d}`. -/
def pad4digits (n : Nat) : List Nat :=
  List.replicate (4 - (decDigits n).length) 0 ++ decDigits n

def decodeDigits (l : List Nat) : Nat := l.foldl (fun a d => a * 10 + d) 0

def natDigitsStr (l : List Nat) : String := String.mk (l.map Nat.digitChar)

/-- The id returned by `start_activity`: `f"act_{n:04d}"`. -/
def formatActivityId (n : Nat) : String := "act_" ++ natDigitsStr (pad4digits n)

/-- Modelled from the spec: the source draws each data-product identifier
from `uuid.uuid4()` (an external random generator, not repository code);
§2 and §3 of the spec describe products as fresh unique opaque identifiers,
so the generator is modelled as an injective supply indexed by a counter
threaded through the state. -/
def mkUuid (n : Nat) : String := "uuid-" ++ natDigitsStr (decDigits n)

/-! ### Request / response shapes (pydantic models and endpoint payloads) -/

structure KeyValString where
  key : String
  value : String
deriving DecidableEq

structure PerformActionCmd where
  actionName : String
  actionOptions : Option (List KeyValString) := none
deriving DecidableEq

structure CancelActivityCmd where
  activityId : String
  reason : String
deriving DecidableEq

structure StartActivityReq where
  activityName : String
  activityOptions : Option (List KeyValString) := none
  activityDeadline : Option String := none
deriving DecidableEq

/-- The body returned by `POST /v0.1/activities/start`. -/
structure StartActivityResp where
  activityId : String
  errorMsg : Option String := none
deriving DecidableEq

/-- Result of `POST /v0.1/activities/cancel`: HTTP 404 for an unknown id,
otherwise HTTP 202 `{accepted: true}`. -/
inductive CancelResp where
  | notFound
  | accepted
deriving DecidableEq

/-- The body returned by `GET /v0.1/activities/{id}/status`. -/
structure StatusResp where
  activityStatus : String
  timeBegin : Int
  timeEnd : Option Int := none
  statusMsg : Option String := none
deriving DecidableEq

/-- The body returned by `GET /v0.1/activities/{id}/data`. -/
structure DataResp where
  products : List String
  errorMsg : Option String := none
deriving DecidableEq

/-! ### Events -/

/-- A JSON payload value: the payload dicts of the source hold strings and
timestamps (timestamps are abstract instants here). -/
inductive JVal where
  | str : String → JVal
  | time : Int → JVal
deriving DecidableEq

structure Event where
  eventName : String
  eventData : List (String × JVal)
deriving DecidableEq

def lookupKey (l : List (String × JVal)) (k : String) : Option JVal :=
  (l.find? (fun p => p.1 == k)).map (·.2)

/-! ### Activity records and global state -/

/-- `ActivityState` of the source.  `timeBegin`, `timeEnd` and `deadline`
are abstract instants; `runPhase` is not a field of the Python dataclass but
records how far the activity's spawned `run()` task has executed
(0 = before the first sleep ends, 1 = between the two steps, 2 = finished). -/
structure ActivityState where
  activityId : String
  activityName : String
  status : String := "ACTIVITY_PENDING"
  timeBegin : Int
  timeEnd : Option Int := none
  statusMsg : Option String := none
  products : List String := []
  deadline : Option Int := none
  runPhase : Nat := 0
deriving DecidableEq

/-- The module-level mutable state: `_activities` (insertion-ordered dict,
modelled as an association list), `_next_activity_num`, `_event_queue`
(events emitted so far, FIFO), plus the fresh-uuid counter of `mkUuid`. -/
structure SimState where
  activities : List (String × ActivityState) := []
  nextActivityNum : Nat := 1
  events : List Event := []
  uuidCounter : Nat := 0
deriving DecidableEq

def ACTIONS : List String := ["HOME", "MOVE", "CALIBRATE"]

def ACTIVITIES : List String := ["BUILD", "SCAN"]

/-- `_activities.get(aid)`. -/
def lookupA (l : List (String × ActivityState)) (aid : String) : Option ActivityState :=
  (l.find? (fun p => p.1 == aid)).map (·.2)

/-- In-place mutation of the record stored under `aid` (the Python handlers
mutate the shared `ActivityState` object; ids are never removed or reused,
so mutating the object is the same as replacing the entry). -/
def updateActivity (l : List (String × ActivityState)) (aid : String)
    (st : ActivityState) : List (String × ActivityState) :=
  l.map (fun p => if p.1 == aid then (aid, st) else p)

def getActivity (s : SimState) (aid : String) : Option ActivityState :=
  lookupA s.activities aid

/-- `emit`: append one envelope to the FIFO queue. -/
def emit (s : SimState) (eventName : String) (eventData : List (String × JVal)) : SimState :=
  { s with events := s.events ++ [⟨eventName, eventData⟩] }

/-- Modelled from the spec: `dateutil.parser.isoparse` (an external library,
not repository code) parses an ISO-8601 string to an absolute instant or
raises.  It is modelled as a partial parser into the abstract time line:
a non-empty all-digit string parses to the corresponding instant, anything
else fails.  The claims depend only on whether parsing succeeds and on the
order of the parsed instant relative to the current time. -/
def isoparse (ds : String) : Option Int :=
  if ds.data ≠ [] ∧ ds.data.all (fun c => c.isDigit) then
    some (Int.ofNat (ds.data.foldl (fun a c => a * 10 + (c.toNat - 48)) 0))
  else none

/-! ### Handlers and task steps -/

/-- The payload built by the delayed `complete()` step of `perform_action`:
outcome determined from the action name alone, `statusMsg` present exactly
when the message is a non-empty string (Python truthiness of `if msg:`). -/
def performActionEvent (cmd : PerformActionCmd) (tBegin tEnd : Int) : Event :=
  let status := if cmd.actionName.toUpper == "CALIBRATE"
    then "ACTION_FAILURE" else "ACTION_SUCCESS"
  let msg : Option String := if cmd.actionName.toUpper == "CALIBRATE"
    then some "Calibration target not found" else none
  let base := [("actionName", JVal.str cmd.actionName),
               ("actionStatus", JVal.str status),
               ("timeBegin", JVal.time tBegin),
               ("timeEnd", JVal.time tEnd)]
  { eventName := "InstrumentActionCompletion",
    eventData := match msg with
      | some m => if m ≠ "" then base ++ [("statusMsg", JVal.str m)] else base
      | none => base }

/-- The delayed `complete()` step of `perform_action` (fires once, about
200ms after the request was accepted): emits the single completion event. -/
def performActionComplete (cmd : PerformActionCmd) (tBegin tEnd : Int)
    (s : SimState) : SimState :=
  { s with events := s.events ++ [performActionEvent cmd tBegin tEnd] }

/-- The synchronous part of `POST /v0.1/activities/start`.  Mirrors the
source order: unknown-name check, id allocation (counter bumped before
deadline validation), deadline parse (`if req.activityDeadline:` is Python
truthiness, so an empty string counts as no deadline), registration, initial
PENDING event, and scheduling of the `run()` task (the new record's
`runPhase` is 0). -/
def start_activity (req : StartActivityReq) (now : Int) (s : SimState) :
    StartActivityResp × SimState :=
  if req.activityName ∈ ACTIVITIES then
    let activityId := formatActivityId s.nextActivityNum
    let s1 := { s with nextActivityNum := s.nextActivityNum + 1 }
    let deadlineParse : Option (Option Int) :=
      match req.activityDeadline with
      | some ds => if ds ≠ "" then (isoparse ds).map some else some none
      | none => some none
    match deadlineParse with
    | none =>
        ({ activityId := "",
           errorMsg := some ("Invalid activityDeadline: " ++
             (req.activityDeadline.getD "")) }, s1)
    | some deadlineDt =>
        let st : ActivityState :=
          { activityId := activityId, activityName := req.activityName,
            timeBegin := now, deadline := deadlineDt }
        let s2 := { s1 with activities := s1.activities ++ [(activityId, st)] }
        let s3 := emit s2 "InstrumentActivityStatusChange"
          [("activityId", JVal.str st.activityId),
           ("activityName", JVal.str st.activityName),
           ("activityStatus", JVal.str st.status)]
        ({ activityId := st.activityId }, s3)
  else
    ({ activityId := "",
       errorMsg := some ("Unknown activityName: " ++ req.activityName) }, s)

/-- First step of the spawned `run()` task (after the ~200ms sleep):
unconditionally sets the status to IN_PROGRESS and emits the event.  The
`runPhase` guard encodes that the task executes this step exactly once,
right after the activity was started. -/
def run_step1 (aid : String) (s : SimState) : SimState :=
  match getActivity s aid with
  | none => s
  | some st =>
    if st.runPhase = 0 then
      let st1 := { st with status := "ACTIVITY_IN_PROGRESS", runPhase := 1 }
      let s1 := { s with activities := updateActivity s.activities aid st1 }
      emit s1 "InstrumentActivityStatusChange"
        [("activityId", JVal.str st1.activityId),
         ("activityName", JVal.str st1.activityName),
         ("activityStatus", JVal.str st1.status)]
    else s

/-- Second step of the spawned `run()` task (after the further ~500ms
sleep): cancel if a deadline was supplied and the current time has passed
it, otherwise complete with two freshly generated products.  The `runPhase`
guard encodes that the task executes this step exactly once, after its first
step. -/
def run_step2 (aid : String) (now : Int) (s : SimState) : SimState :=
  match getActivity s aid with
  | none => s
  | some st =>
    if st.runPhase = 1 then
      match st.deadline with
      | some d =>
        if now > d then
          let st1 := { st with status := "ACTIVITY_CANCELED",
                               statusMsg := some "Deadline exceeded",
                               timeEnd := some now, runPhase := 2 }
          let s1 := { s with activities := updateActivity s.activities aid st1 }
          emit s1 "InstrumentActivityStatusChange"
            [("activityId", JVal.str st1.activityId),
             ("activityName", JVal.str st1.activityName),
             ("activityStatus", JVal.str st1.status),
             ("statusMsg", JVal.str "Deadline exceeded")]
        else
          let st1 := { st with status := "ACTIVITY_COMPLETED",
                               timeEnd := some now,
                               products := [mkUuid s.uuidCounter,
                                            mkUuid (s.uuidCounter + 1)],
                               runPhase := 2 }
          let s1 := { s with uuidCounter := s.uuidCounter + 2,
                             activities := updateActivity s.activities aid st1 }
          emit s1 "InstrumentActivityStatusChange"
            [("activityId", JVal.str st1.activityId),
             ("activityName", JVal.str st1.activityName),
             ("activityStatus", JVal.str st1.status)]
      | none =>
        let st1 := { st with status := "ACTIVITY_COMPLETED",
                             timeEnd := some now,
                             products := [mkUuid s.uuidCounter,
                                          mkUuid (s.uuidCounter + 1)],
                             runPhase := 2 }
        let s1 := { s with uuidCounter := s.uuidCounter + 2,
                           activities := updateActivity s.activities aid st1 }
        emit s1 "InstrumentActivityStatusChange"
          [("activityId", JVal.str st1.activityId),
           ("activityName", JVal.str st1.activityName),
           ("activityStatus", JVal.str st1.status)]
    else s

/-- `POST /v0.1/activities/cancel`: 404 for an unknown id; otherwise force
the record to CANCELED (regardless of its current state), stamp `timeEnd`,
store the reason and emit the status-change event carrying it. -/
def cancel_activity (cmd : CancelActivityCmd) (now : Int) (s : SimState) :
    CancelResp × SimState :=
  match getActivity s cmd.activityId with
  | none => (CancelResp.notFound, s)
  | some st =>
    let st1 := { st with status := "ACTIVITY_CANCELED",
                         timeEnd := some now,
                         statusMsg := some cmd.reason }
    let s1 := { s with activities := updateActivity s.activities cmd.activityId st1 }
    (CancelResp.accepted,
     emit s1 "InstrumentActivityStatusChange"
       [("activityId", JVal.str st1.activityId),
        ("activityName", JVal.str st1.activityName),
        ("activityStatus", JVal.str st1.status),
        ("statusMsg", JVal.str cmd.reason)])

/-- `GET /v0.1/activities/{id}/status` (`none` is HTTP 404).  `timeEnd` and
`statusMsg` are included under Python truthiness; in the source both are
non-empty strings whenever set, so presence coincides with being set, except
that an empty `statusMsg` would be omitted, mirrored by the guard. -/
def get_activity_status (aid : String) (s : SimState) : Option StatusResp :=
  (getActivity s aid).map (fun st =>
    { activityStatus := st.status, timeBegin := st.timeBegin,
      timeEnd := st.timeEnd,
      statusMsg := match st.statusMsg with
        | some m => if m ≠ "" then some m else none
        | none => none })

/-- `GET /v0.1/activities/{id}/data` (`none` is HTTP 404). -/
def get_activity_data (aid : String) (s : SimState) : Option DataResp :=
  (getActivity s aid).map (fun st =>
    if st.status ≠ "ACTIVITY_COMPLETED" then
      { products := [], errorMsg := some "Data not ready" }
    else
      { products := st.products })

/-! ### Traces -/

/-- One scheduler-visible operation: an HTTP command or the firing of one
step of a spawned task.  The interleaving of task steps with commands is
arbitrary, as the source's cooperative scheduler permits. -/
inductive Op where
  | start (req : StartActivityReq) (now : Int)
  | step1 (aid : String)
  | step2 (aid : String) (now : Int)
  | cancel (cmd : CancelActivityCmd) (now : Int)
  | actionComplete (cmd : PerformActionCmd) (tBegin tEnd : Int)
deriving DecidableEq

def applyOp (s : SimState) : Op → SimState
  | Op.start req now => (start_activity req now s).2
  | Op.step1 aid => run_step1 aid s
  | Op.step2 aid now => run_step2 aid now s
  | Op.cancel cmd now => (cancel_activity cmd now s).2
  | Op.actionComplete cmd tB tE => performActionComplete cmd tB tE s

def initState : SimState := {}

def runFrom (s : SimState) (ops : List Op) : SimState := ops.foldl applyOp s

def runOps (ops : List Op) : SimState := runFrom initState ops

/-- The ids returned by the successful `start_activity` calls of a trace,
in order. -/
def traceStartIds (s : SimState) : List Op → List String
  | [] => []
  | op :: ops =>
    let rest := traceStartIds (applyOp s op) ops
    match op with
    | Op.start req now =>
        let r := (start_activity req now s).1
        if r.activityId = "" then rest else r.activityId :: rest
    | _ => rest

/-- The counter values consumed by the successful `start_activity` calls of
a trace, in order. -/
def traceStartNums (s : SimState) : List Op → List Nat
  | [] => []
  | op :: ops =>
    let rest := traceStartNums (applyOp s op) ops
    match op with
    | Op.start req now =>
        let r := (start_activity req now s).1
        if r.activityId = "" then rest else s.nextActivityNum :: rest
    | _ => rest

end Simulator

namespace Simulator

/-! ### Injectivity of the rendered identifiers -/

theorem decodeDigits_append_singleton (l : List Nat) (d : Nat) :
    decodeDigits (l ++ [d]) = decodeDigits l * 10 + d := by
  simp [decodeDigits, List.foldl_append]

theorem decodeDigits_decDigitsAux (fuel n : Nat) (h : n ≤ fuel) :
    decodeDigits (decDigitsAux fuel n) = n := by
  induction fuel using Nat.strong_induction_on generalizing n with
  | _ fuel ih =>
    match fuel, n with
    | _, 0 => simp [decDigitsAux, decodeDigits]
    | 0, n + 1 => omega
    | fuel + 1, n + 1 =>
      rw [decDigitsAux, decodeDigits_append_singleton,
        ih fuel (by omega) ((n + 1) / 10) (by omega)]
      omega

theorem decodeDigits_decDigits (n : Nat) : decodeDigits (decDigits n) = n :=
  decodeDigits_decDigitsAux n n (Nat.le_refl n)

theorem decodeDigits_replicate_zero (k : Nat) (l : List Nat) :
    decodeDigits (List.replicate k 0 ++ l) = decodeDigits l := by
  induction k with
  | zero => simp
  | succ k ih =>
    simpa [decodeDigits, List.replicate_succ] using ih

theorem decodeDigits_pad4digits (n : Nat) : decodeDigits (pad4digits n) = n := by
  rw [pad4digits, decodeDigits_replicate_zero, decodeDigits_decDigits]

theorem pad4digits_inj {m n : Nat} (h : pad4digits m = pad4digits n) : m = n := by
  have := decodeDigits_pad4digits m
  rw [h, decodeDigits_pad4digits] at this
  omega

theorem decDigitsAux_mem_lt (fuel n : Nat) : ∀ d ∈ decDigitsAux fuel n, d < 10 := by
  induction fuel using Nat.strong_induction_on generalizing n with
  | _ fuel ih =>
    match fuel, n with
    | _, 0 => simp [decDigitsAux]
    | 0, n + 1 => simp [decDigitsAux]
    | fuel + 1, n + 1 =>
      intro d hd
      rw [decDigitsAux] at hd
      rcases List.mem_append.mp hd with h1 | h1
      · exact ih fuel (by omega) _ d h1
      · simp at h1
        omega

theorem pad4digits_mem_lt (n : Nat) : ∀ d ∈ pad4digits n, d < 10 := by
  intro d hd
  rcases List.mem_append.mp hd with h1 | h1
  · have := List.eq_of_mem_replicate h1
    omega
  · exact decDigitsAux_mem_lt n n d h1

theorem digitChar_inj_lt :
    ∀ a, a < 10 → ∀ b, b < 10 → Nat.digitChar a = Nat.digitChar b → a = b := by
  decide

theorem map_digitChar_inj :
    ∀ l1 l2 : List Nat, (∀ d ∈ l1, d < 10) → (∀ d ∈ l2, d < 10) →
      l1.map Nat.digitChar = l2.map Nat.digitChar → l1 = l2 := by
  intro l1
  induction l1 with
  | nil => intro l2 _ _ h; cases l2 <;> simp_all
  | cons a l1 ih =>
    intro l2 h1 h2 h
    cases l2 with
    | nil => simp_all
    | cons b l2 =>
      simp only [List.map_cons, List.cons.injEq] at h
      have hab : a = b :=
        digitChar_inj_lt a (h1 a (by simp)) b (h2 b (by simp)) h.1
      have : l1 = l2 := ih l2 (fun d hd => h1 d (by simp [hd]))
        (fun d hd => h2 d (by simp [hd])) h.2
      simp [hab, this]

theorem natDigitsStr_inj (l1 l2 : List Nat)
    (h1 : ∀ d ∈ l1, d < 10) (h2 : ∀ d ∈ l2, d < 10)
    (h : natDigitsStr l1 = natDigitsStr l2) : l1 = l2 := by
  have hd := congrArg String.data h
  exact map_digitChar_inj l1 l2 h1 h2 hd

theorem string_append_left_cancel {s x y : String} (h : s ++ x = s ++ y) : x = y := by
  have hd : (s ++ x).data = (s ++ y).data := by rw [h]
  rw [String.data_append, String.data_append] at hd
  exact String.ext (List.append_cancel_left hd)

theorem formatActivityId_inj : Function.Injective formatActivityId := by
  intro m n h
  rw [formatActivityId, formatActivityId] at h
  exact pad4digits_inj
    (natDigitsStr_inj (pad4digits m) (pad4digits n)
      (pad4digits_mem_lt m) (pad4digits_mem_lt n)
      (string_append_left_cancel h))

theorem mkUuid_inj : Function.Injective mkUuid := by
  intro m n h
  rw [mkUuid, mkUuid] at h
  have h2 := natDigitsStr_inj (decDigits m) (decDigits n)
    (decDigitsAux_mem_lt m m) (decDigitsAux_mem_lt n n)
    (string_append_left_cancel h)
  have hm := decodeDigits_decDigits m
  rw [h2, decodeDigits_decDigits] at hm
  omega

theorem formatActivityId_ne_empty (n : Nat) : formatActivityId n ≠ "" := by
  intro h
  have hd : (formatActivityId n).data = ("" : String).data := by rw [h]
  rw [formatActivityId, String.data_append] at hd
  simp at hd

end Simulator

namespace Simulator

/-! ### Registry lemmas -/

theorem lookupA_nil (aid : String) : lookupA [] aid = none := rfl

theorem lookupA_cons (p : String × ActivityState) (l : List (String × ActivityState))
    (aid : String) :
    lookupA (p :: l) aid = if p.1 = aid then some p.2 else lookupA l aid := by
  by_cases hp : p.1 = aid
  · rw [if_pos hp, lookupA, List.find?_cons_of_pos _ (by simpa using hp)]
    simp
  · rw [if_neg hp, lookupA, List.find?_cons_of_neg _ (by simpa using hp), lookupA]

theorem updateActivity_nil (aid : String) (st : ActivityState) :
    updateActivity [] aid st = [] := rfl

theorem updateActivity_cons (p : String × ActivityState)
    (l : List (String × ActivityState)) (aid : String) (st : ActivityState) :
    updateActivity (p :: l) aid st =
      (if p.1 = aid then (aid, st) else p) :: updateActivity l aid st := by
  by_cases hp : p.1 = aid <;> simp [updateActivity, hp]

theorem lookupA_mem {l : List (String × ActivityState)} {aid : String}
    {st : ActivityState} (h : lookupA l aid = some st) : (aid, st) ∈ l := by
  induction l with
  | nil => simp [lookupA_nil] at h
  | cons p l ih =>
    rw [lookupA_cons] at h
    by_cases hp : p.1 = aid
    · rw [if_pos hp] at h
      cases p
      simp_all
    · rw [if_neg hp] at h
      exact List.mem_cons_of_mem _ (ih h)

theorem lookupA_update_self {l : List (String × ActivityState)} {aid : String}
    {st0 : ActivityState} (st1 : ActivityState) (h : lookupA l aid = some st0) :
    lookupA (updateActivity l aid st1) aid = some st1 := by
  induction l with
  | nil => simp [lookupA_nil] at h
  | cons p l ih =>
    rw [lookupA_cons] at h
    rw [updateActivity_cons, lookupA_cons]
    by_cases hp : p.1 = aid
    · simp [hp]
    · rw [if_neg hp] at h ⊢
      simp only [hp, if_false]
      exact ih h

theorem lookupA_update_ne {l : List (String × ActivityState)} {aid k : String}
    (st1 : ActivityState) (hne : aid ≠ k) :
    lookupA (updateActivity l k st1) aid = lookupA l aid := by
  induction l with
  | nil => simp [updateActivity_nil]
  | cons p l ih =>
    rw [updateActivity_cons, lookupA_cons, lookupA_cons]
    by_cases hp : p.1 = k
    · simp only [hp, if_true]
      rw [if_neg (by simpa using Ne.symm hne), if_neg (Ne.symm hne)]
      exact ih
    · simp only [hp, if_false]
      by_cases hpa : p.1 = aid
      · rw [if_pos hpa, if_pos hpa]
      · rw [if_neg hpa, if_neg hpa]
        exact ih

theorem lookupA_append_left {l l2 : List (String × ActivityState)} {aid : String}
    {st : ActivityState} (h : lookupA l aid = some st) :
    lookupA (l ++ l2) aid = some st := by
  induction l with
  | nil => simp [lookupA_nil] at h
  | cons p l ih =>
    rw [lookupA_cons] at h
    rw [List.cons_append, lookupA_cons]
    by_cases hp : p.1 = aid
    · rwa [if_pos hp] at h ⊢
    · rw [if_neg hp] at h ⊢
      exact ih h

theorem lookupA_append_right {l l2 : List (String × ActivityState)} {aid : String}
    (h : lookupA l aid = none) :
    lookupA (l ++ l2) aid = lookupA l2 aid := by
  induction l with
  | nil => simp
  | cons p l ih =>
    rw [lookupA_cons] at h
    rw [List.cons_append, lookupA_cons]
    by_cases hp : p.1 = aid
    · rw [if_pos hp] at h
      simp at h
    · rw [if_neg hp] at h ⊢
      exact ih h

theorem mem_updateActivity {l : List (String × ActivityState)} {aid : String}
    {st : ActivityState} {p : String × ActivityState}
    (h : p ∈ updateActivity l aid st) : p = (aid, st) ∨ p ∈ l := by
  induction l with
  | nil => simp [updateActivity_nil] at h
  | cons q l ih =>
    rw [updateActivity_cons] at h
    rcases List.mem_cons.mp h with h1 | h1
    · by_cases hq : q.1 = aid
      · rw [if_pos hq] at h1
        exact Or.inl h1
      · rw [if_neg hq] at h1
        exact Or.inr (List.mem_cons.mpr (Or.inl h1))
    · rcases ih h1 with h2 | h2
      · exact Or.inl h2
      · exact Or.inr (List.mem_cons.mpr (Or.inr h2))

end Simulator

namespace Simulator

/-! ### The reachability invariant

Facts holding of every activity record in every reachable state; they are
what the claims about terminal states, `timeEnd` and `products` rest on. -/

def terminalStatus (st : ActivityState) : Prop :=
  st.status = "ACTIVITY_COMPLETED" ∨ st.status = "ACTIVITY_CANCELED"

structure ActInv (st : ActivityState) : Prop where
  phase_le : st.runPhase ≤ 2
  completed_phase : st.status = "ACTIVITY_COMPLETED" → st.runPhase = 2
  completed_products : st.status = "ACTIVITY_COMPLETED" → st.products.length = 2
  products_terminal : st.products ≠ [] → terminalStatus st
  terminal_timeEnd : terminalStatus st → st.timeEnd.isSome = true
  early_products : st.runPhase ≤ 1 → st.products = []

def Inv (s : SimState) : Prop := ∀ p ∈ s.activities, ActInv p.2

theorem inv_init : Inv initState := by
  intro p hp
  simp [initState] at hp

theorem actInv_new (activityId name : String) (now : Int) (dl : Option Int) :
    ActInv { activityId := activityId, activityName := name,
             timeBegin := now, deadline := dl } := by
  refine ⟨?_, ?_, ?_, ?_, ?_, ?_⟩ <;> simp [terminalStatus] <;> decide

theorem actInv_cancelRecord {st : ActivityState} (h : ActInv st)
    (now : Int) (reason : String) :
    ActInv { st with status := "ACTIVITY_CANCELED", timeEnd := some now,
                     statusMsg := some reason } := by
  refine ⟨h.phase_le, ?_, ?_, ?_, ?_, h.early_products⟩
  · intro hc; simp at hc
  · intro hc; simp at hc
  · intro _; right; rfl
  · intro _; rfl

theorem actInv_step1Record {st : ActivityState} (h : ActInv st)
    (hphase : st.runPhase = 0) :
    ActInv { st with status := "ACTIVITY_IN_PROGRESS", runPhase := 1 } := by
  have hprod : st.products = [] := h.early_products (by omega)
  refine ⟨?_, ?_, ?_, ?_, ?_, ?_⟩
  · simp
  · intro hc; simp at hc
  · intro hc; simp at hc
  · intro hne; exact absurd hprod hne
  · intro hterm; rcases hterm with hc | hc <;> simp [terminalStatus] at hc
  · intro _; exact hprod

theorem actInv_step2CancelRecord {st : ActivityState} (h : ActInv st)
    (hphase : st.runPhase = 1) (now : Int) :
    ActInv { st with status := "ACTIVITY_CANCELED",
                     statusMsg := some "Deadline exceeded",
                     timeEnd := some now, runPhase := 2 } := by
  have hprod : st.products = [] := h.early_products (by omega)
  refine ⟨?_, ?_, ?_, ?_, ?_, ?_⟩
  · simp
  · intro hc; simp at hc
  · intro hc; simp at hc
  · intro hne; exact absurd hprod hne
  · intro _; rfl
  · intro hc; simp at hc

theorem actInv_step2CompleteRecord (st : ActivityState) (now : Int) (c : Nat) :
    ActInv { st with status := "ACTIVITY_COMPLETED", timeEnd := some now,
                     products := [mkUuid c, mkUuid (c + 1)], runPhase := 2 } := by
  refine ⟨?_, ?_, ?_, ?_, ?_, ?_⟩
  · simp
  · intro _; rfl
  · intro _; rfl
  · intro _; left; rfl
  · intro _; rfl
  · intro hc; simp at hc

theorem inv_start (req : StartActivityReq) (now : Int) {s : SimState}
    (h : Inv s) : Inv (start_activity req now s).2 := by
  rw [start_activity]
  by_cases hmem : req.activityName ∈ ACTIVITIES
  · rw [if_pos hmem]
    dsimp only
    cases hD : req.activityDeadline with
    | none =>
      intro p hp
      rcases List.mem_append.mp hp with h1 | h1
      · exact h p h1
      · simp only [List.mem_singleton] at h1
        rw [h1]
        exact actInv_new _ _ _ _
    | some ds =>
      dsimp only
      by_cases hne : ds ≠ ""
      · rw [if_pos hne]
        cases hiso : isoparse ds with
        | none => exact h
        | some d =>
          dsimp only [Option.map]
          intro p hp
          rcases List.mem_append.mp hp with h1 | h1
          · exact h p h1
          · simp only [List.mem_singleton] at h1
            rw [h1]
            exact actInv_new _ _ _ _
      · rw [if_neg hne]
        intro p hp
        rcases List.mem_append.mp hp with h1 | h1
        · exact h p h1
        · simp only [List.mem_singleton] at h1
          rw [h1]
          exact actInv_new _ _ _ _
  · rw [if_neg hmem]
    exact h

theorem inv_step1 (aid : String) {s : SimState} (h : Inv s) :
    Inv (run_step1 aid s) := by
  rw [run_step1]
  cases hg : getActivity s aid with
  | none => exact h
  | some st =>
    dsimp only
    by_cases hphase : st.runPhase = 0
    · rw [if_pos hphase]
      intro p hp
      rcases mem_updateActivity hp with h1 | h1
      · rw [h1]
        exact actInv_step1Record (h _ (lookupA_mem hg)) hphase
      · exact h p h1
    · rw [if_neg hphase]
      exact h

theorem inv_step2 (aid : String) (now : Int) {s : SimState} (h : Inv s) :
    Inv (run_step2 aid now s) := by
  rw [run_step2]
  cases hg : getActivity s aid with
  | none => exact h
  | some st =>
    dsimp only
    have hstInv : ActInv st := h _ (lookupA_mem hg)
    by_cases hphase : st.runPhase = 1
    · rw [if_pos hphase]
      cases hd : st.deadline with
      | some d =>
        dsimp only
        by_cases hlate : now > d
        · rw [if_pos hlate]
          intro p hp
          rcases mem_updateActivity hp with h1 | h1
          · rw [h1]
            have hrec := actInv_step2CancelRecord hstInv hphase now
            rw [hd] at hrec
            exact hrec
          · exact h p h1
        · rw [if_neg hlate]
          intro p hp
          rcases mem_updateActivity hp with h1 | h1
          · rw [h1]
            have hrec := actInv_step2CompleteRecord st now s.uuidCounter
            rw [hd] at hrec
            exact hrec
          · exact h p h1
      | none =>
        dsimp only
        intro p hp
        rcases mem_updateActivity hp with h1 | h1
        · rw [h1]
          have hrec := actInv_step2CompleteRecord st now s.uuidCounter
          rw [hd] at hrec
          exact hrec
        · exact h p h1
    · rw [if_neg hphase]
      exact h

theorem inv_cancel (cmd : CancelActivityCmd) (now : Int) {s : SimState}
    (h : Inv s) : Inv (cancel_activity cmd now s).2 := by
  rw [cancel_activity]
  cases hg : getActivity s cmd.activityId with
  | none => exact h
  | some st =>
    intro p hp
    rcases mem_updateActivity hp with h1 | h1
    · rw [h1]
      exact actInv_cancelRecord (h _ (lookupA_mem hg)) now cmd.reason
    · exact h p h1

theorem inv_applyOp {s : SimState} (op : Op) (h : Inv s) : Inv (applyOp s op) := by
  cases op with
  | start req now => exact inv_start req now h
  | step1 aid => exact inv_step1 aid h
  | step2 aid now => exact inv_step2 aid now h
  | cancel cmd now => exact inv_cancel cmd now h
  | actionComplete cmd tB tE => exact h

theorem inv_runFrom (ops : List Op) {s : SimState} (h : Inv s) :
    Inv (runFrom s ops) := by
  induction ops generalizing s with
  | nil => exact h
  | cons op ops ih => exact ih (inv_applyOp op h)

theorem inv_runOps (ops : List Op) : Inv (runOps ops) :=
  inv_runFrom ops inv_init

end Simulator

namespace Simulator

/-! ### Helper lemmas about the handlers -/

theorem string_append_left_ne_empty {s : String} (t : String) (h : s.data ≠ []) :
    s ++ t ≠ "" := by
  intro he
  have hd := congrArg String.data he
  rw [String.data_append] at hd
  have hnil : ("" : String).data = [] := rfl
  rw [hnil] at hd
  exact h (List.append_eq_nil.mp hd).1

theorem getActivity_emit (s : SimState) (n : String) (d : List (String × JVal))
    (aid : String) : getActivity (emit s n d) aid = getActivity s aid := rfl

/-- Canceling a registered id: accepted, record forced to CANCELED with the
reason and timestamp, exactly one event appended, other records and the
counter untouched. -/
theorem cancel_known {s : SimState} {cmd : CancelActivityCmd} {st : ActivityState}
    (now : Int) (h : getActivity s cmd.activityId = some st) :
    (cancel_activity cmd now s).1 = CancelResp.accepted ∧
    getActivity (cancel_activity cmd now s).2 cmd.activityId =
      some { st with status := "ACTIVITY_CANCELED", timeEnd := some now,
                     statusMsg := some cmd.reason } ∧
    (cancel_activity cmd now s).2.events = s.events ++
      [⟨"InstrumentActivityStatusChange",
        [("activityId", JVal.str st.activityId),
         ("activityName", JVal.str st.activityName),
         ("activityStatus", JVal.str "ACTIVITY_CANCELED"),
         ("statusMsg", JVal.str cmd.reason)]⟩] ∧
    (∀ a2, a2 ≠ cmd.activityId →
       getActivity (cancel_activity cmd now s).2 a2 = getActivity s a2) ∧
    (cancel_activity cmd now s).2.nextActivityNum = s.nextActivityNum := by
  rw [cancel_activity]
  rw [h]
  dsimp only
  refine ⟨rfl, ?_, rfl, ?_, rfl⟩
  · exact lookupA_update_self _ h
  · intro a2 ha2
    exact lookupA_update_ne _ ha2

/-- A record whose task has finished (`runPhase = 2`) is untouched by any
firing of a first task step. -/
theorem run_step1_preserves_done {s : SimState} {aid : String} {st : ActivityState}
    (h : getActivity s aid = some st) (hph : st.runPhase = 2) (a2 : String) :
    getActivity (run_step1 a2 s) aid = some st := by
  rw [run_step1]
  cases hg : getActivity s a2 with
  | none => exact h
  | some st2 =>
    dsimp only
    by_cases hphase : st2.runPhase = 0
    · rw [if_pos hphase]
      by_cases heq : a2 = aid
      · rw [heq] at hg
        rw [h] at hg
        have : st = st2 := by injection hg
        rw [← this] at hphase
        omega
      · rw [getActivity_emit]
        show lookupA (updateActivity s.activities a2 _) aid = some st
        rw [lookupA_update_ne _ (fun he => heq he.symm)]
        exact h
    · rw [if_neg hphase]
      exact h

/-- A record whose task has finished (`runPhase = 2`) is untouched by any
firing of a second task step. -/
theorem run_step2_preserves_done {s : SimState} {aid : String} {st : ActivityState}
    (h : getActivity s aid = some st) (hph : st.runPhase = 2) (a2 : String)
    (t2 : Int) : getActivity (run_step2 a2 t2 s) aid = some st := by
  rw [run_step2]
  cases hg : getActivity s a2 with
  | none => exact h
  | some st2 =>
    dsimp only
    by_cases hphase : st2.runPhase = 1
    · rw [if_pos hphase]
      by_cases heq : a2 = aid
      · rw [heq] at hg
        rw [h] at hg
        have : st = st2 := by injection hg
        rw [← this] at hphase
        omega
      · have hne : aid ≠ a2 := fun he => heq he.symm
        cases st2.deadline with
        | some d =>
          dsimp only
          by_cases hlate : t2 > d
          · rw [if_pos hlate, getActivity_emit]
            show lookupA (updateActivity s.activities a2 _) aid = some st
            rw [lookupA_update_ne _ hne]
            exact h
          · rw [if_neg hlate, getActivity_emit]
            show lookupA (updateActivity s.activities a2 _) aid = some st
            rw [lookupA_update_ne _ hne]
            exact h
        | none =>
          rw [getActivity_emit]
          show lookupA (updateActivity s.activities a2 _) aid = some st
          rw [lookupA_update_ne _ hne]
          exact h
    · rw [if_neg hphase]
      exact h

/-- A successful start call returns the rendering of the current counter. -/
theorem start_success_id {req : StartActivityReq} {now : Int} {s : SimState}
    (h : (start_activity req now s).1.activityId ≠ "") :
    (start_activity req now s).1.activityId = formatActivityId s.nextActivityNum := by
  rw [start_activity] at h ⊢
  by_cases hmem : req.activityName ∈ ACTIVITIES
  · rw [if_pos hmem] at h ⊢
    dsimp only at h ⊢
    cases hD : req.activityDeadline with
    | none => rfl
    | some ds =>
      rw [hD] at h
      dsimp only at h ⊢
      by_cases hne : ds ≠ ""
      · simp only [if_pos hne] at h ⊢
        cases hiso : isoparse ds with
        | none =>
          rw [hiso] at h
          dsimp only [Option.map] at h
          exact absurd rfl h
        | some d => rfl
      · simp only [if_neg hne]
  · rw [if_neg hmem] at h
    exact absurd rfl h

/-- Every start call (successful or not, except unknown-name rejection)
bumps the counter; unknown-name leaves the state alone. -/
theorem start_counter (req : StartActivityReq) (now : Int) (s : SimState) :
    (start_activity req now s).2.nextActivityNum = s.nextActivityNum + 1 ∨
    ((start_activity req now s).2 = s ∧ req.activityName ∉ ACTIVITIES) := by
  rw [start_activity]
  by_cases hmem : req.activityName ∈ ACTIVITIES
  · rw [if_pos hmem]
    dsimp only
    left
    cases hD : req.activityDeadline with
    | none => rfl
    | some ds =>
      dsimp only
      by_cases hne : ds ≠ ""
      · rw [if_pos hne]
        cases hiso : isoparse ds with
        | none => rfl
        | some d => rfl
      · rw [if_neg hne]
        rfl
  · rw [if_neg hmem]
    right
    exact ⟨rfl, hmem⟩

theorem applyOp_counter_mono (s : SimState) (op : Op) :
    s.nextActivityNum ≤ (applyOp s op).nextActivityNum := by
  cases op with
  | start req now =>
    rcases start_counter req now s with h | h
    · rw [applyOp, h]; omega
    · rw [applyOp, h.1]
  | step1 aid =>
    rw [applyOp, run_step1]
    cases getActivity s aid with
    | none => exact Nat.le_refl _
    | some st =>
      dsimp only
      by_cases hphase : st.runPhase = 0
      · rw [if_pos hphase]
        exact Nat.le_refl _
      · rw [if_neg hphase]
  | step2 aid now =>
    rw [applyOp, run_step2]
    cases getActivity s aid with
    | none => exact Nat.le_refl _
    | some st =>
      dsimp only
      by_cases hphase : st.runPhase = 1
      · rw [if_pos hphase]
        cases st.deadline with
        | some d =>
          dsimp only
          by_cases hlate : now > d
          · rw [if_pos hlate]
            exact Nat.le_refl _
          · rw [if_neg hlate]
            exact Nat.le_refl _
        | none => exact Nat.le_refl _
      · rw [if_neg hphase]
  | cancel cmd now =>
    rw [applyOp, cancel_activity]
    cases getActivity s cmd.activityId with
    | none => exact Nat.le_refl _
    | some st => exact Nat.le_refl _
  | actionComplete cmd tB tE => exact Nat.le_refl _

theorem runFrom_counter_mono (ops : List Op) (s : SimState) :
    s.nextActivityNum ≤ (runFrom s ops).nextActivityNum := by
  induction ops generalizing s with
  | nil => exact Nat.le_refl _
  | cons op ops ih =>
    exact Nat.le_trans (applyOp_counter_mono s op) (ih (applyOp s op))

end Simulator

namespace Simulator

theorem start_success_counter (req : StartActivityReq) (now : Int) (s : SimState)
    (h : (start_activity req now s).1.activityId ≠ "") :
    (start_activity req now s).2.nextActivityNum = s.nextActivityNum + 1 := by
  rcases start_counter req now s with hc | hc
  · exact hc
  · rw [start_activity, if_neg hc.2] at h
    exact absurd rfl h

theorem traceStartNums_lb (ops : List Op) (s : SimState) :
    ∀ m ∈ traceStartNums s ops, s.nextActivityNum ≤ m := by
  induction ops generalizing s with
  | nil =>
    intro m hm
    simp only [traceStartNums] at hm
    simp at hm
  | cons op ops ih =>
    intro m hm
    cases op with
    | start req now =>
      simp only [traceStartNums] at hm
      by_cases hid : (start_activity req now s).1.activityId = ""
      · rw [if_pos hid] at hm
        exact Nat.le_trans (applyOp_counter_mono s (Op.start req now))
          (ih (applyOp s (Op.start req now)) m hm)
      · rw [if_neg hid] at hm
        rcases List.mem_cons.mp hm with h1 | h1
        · exact Nat.le_of_eq h1.symm
        · exact Nat.le_trans (applyOp_counter_mono s (Op.start req now))
            (ih (applyOp s (Op.start req now)) m h1)
    | step1 aid =>
      simp only [traceStartNums] at hm
      exact Nat.le_trans (applyOp_counter_mono s (Op.step1 aid))
        (ih (applyOp s (Op.step1 aid)) m hm)
    | step2 aid t =>
      simp only [traceStartNums] at hm
      exact Nat.le_trans (applyOp_counter_mono s (Op.step2 aid t))
        (ih (applyOp s (Op.step2 aid t)) m hm)
    | cancel cmd t =>
      simp only [traceStartNums] at hm
      exact Nat.le_trans (applyOp_counter_mono s (Op.cancel cmd t))
        (ih (applyOp s (Op.cancel cmd t)) m hm)
    | actionComplete cmd tB tE =>
      simp only [traceStartNums] at hm
      exact Nat.le_trans (applyOp_counter_mono s (Op.actionComplete cmd tB tE))
        (ih (applyOp s (Op.actionComplete cmd tB tE)) m hm)

theorem traceStartNums_pairwise (ops : List Op) (s : SimState) :
    (traceStartNums s ops).Pairwise (· < ·) := by
  induction ops generalizing s with
  | nil =>
    rw [traceStartNums]
    exact List.Pairwise.nil
  | cons op ops ih =>
    cases op with
    | start req now =>
      simp only [traceStartNums]
      by_cases hid : (start_activity req now s).1.activityId = ""
      · rw [if_pos hid]
        exact ih _
      · rw [if_neg hid]
        refine List.pairwise_cons.mpr ⟨?_, ih _⟩
        intro m hm
        have h1 := traceStartNums_lb ops (applyOp s (Op.start req now)) m hm
        have h2 : (applyOp s (Op.start req now)).nextActivityNum
            = s.nextActivityNum + 1 := start_success_counter req now s hid
        omega
    | step1 aid =>
      simp only [traceStartNums]
      exact ih _
    | step2 aid t =>
      simp only [traceStartNums]
      exact ih _
    | cancel cmd t =>
      simp only [traceStartNums]
      exact ih _
    | actionComplete cmd tB tE =>
      simp only [traceStartNums]
      exact ih _

theorem traceStartIds_eq_map (ops : List Op) (s : SimState) :
    traceStartIds s ops = (traceStartNums s ops).map formatActivityId := by
  induction ops generalizing s with
  | nil => rfl
  | cons op ops ih =>
    cases op with
    | start req now =>
      simp only [traceStartIds, traceStartNums]
      by_cases hid : (start_activity req now s).1.activityId = ""
      · rw [if_pos hid, if_pos hid]
        exact ih _
      · rw [if_neg hid, if_neg hid, List.map_cons, start_success_id hid, ih _]
    | step1 aid =>
      simp only [traceStartIds, traceStartNums]
      exact ih _
    | step2 aid t =>
      simp only [traceStartIds, traceStartNums]
      exact ih _
    | cancel cmd t =>
      simp only [traceStartIds, traceStartNums]
      exact ih _
    | actionComplete cmd tB tE =>
      simp only [traceStartIds, traceStartNums]
      exact ih _

end Simulator

namespace Simulator

/-! ### Concrete requests and traces used by witnesses and counterexamples -/

def reqBuild : StartActivityReq := { activityName := "BUILD" }

def cmdStop : CancelActivityCmd := { activityId := "act_0001", reason := "operator stop" }

/-! ### The claims -/

/-- C3: the delayed completion step of a performed action emits exactly one
`InstrumentActionCompletion` event and touches nothing else; the outcome is
determined solely by the action name: a name case-insensitively equal to
CALIBRATE yields `actionStatus` ACTION_FAILURE together with the fixed
non-empty diagnostic in `statusMsg`; every other name yields ACTION_SUCCESS
and no `statusMsg` field in the payload. -/
theorem c3_action_outcome (cmd : PerformActionCmd) (tB tE : Int) (s : SimState) :
    (performActionComplete cmd tB tE s).events
        = s.events ++ [performActionEvent cmd tB tE] ∧
    (performActionComplete cmd tB tE s).activities = s.activities ∧
    (performActionEvent cmd tB tE).eventName = "InstrumentActionCompletion" ∧
    (if cmd.actionName.toUpper = "CALIBRATE" then
       lookupKey (performActionEvent cmd tB tE).eventData "actionStatus"
           = some (JVal.str "ACTION_FAILURE") ∧
       lookupKey (performActionEvent cmd tB tE).eventData "statusMsg"
           = some (JVal.str "Calibration target not found") ∧
       ("Calibration target not found" : String) ≠ ""
     else
       lookupKey (performActionEvent cmd tB tE).eventData "actionStatus"
           = some (JVal.str "ACTION_SUCCESS") ∧
       lookupKey (performActionEvent cmd tB tE).eventData "statusMsg" = none) := by
  refine ⟨rfl, rfl, rfl, ?_⟩
  by_cases hc : cmd.actionName.toUpper = "CALIBRATE"
  · rw [if_pos hc]
    refine ⟨?_, ?_, by decide⟩ <;> simp [performActionEvent, lookupKey, hc]
  · rw [if_neg hc]
    constructor <;> simp [performActionEvent, lookupKey, hc]

/-- C4: starting an activity with an unknown name returns the empty id plus
a non-empty error message, registers nothing, schedules nothing, and leaves
every later status query exactly as it was. -/
theorem c4_unknown_start (req : StartActivityReq) (now : Int) (s : SimState)
    (h : req.activityName ∉ ACTIVITIES) :
    (start_activity req now s).1.activityId = "" ∧
    (∃ m, (start_activity req now s).1.errorMsg = some m ∧ m ≠ "") ∧
    (start_activity req now s).2 = s ∧
    (∀ aid, get_activity_status aid (start_activity req now s).2
        = get_activity_status aid s) := by
  rw [start_activity, if_neg h]
  exact ⟨rfl, ⟨_, rfl, string_append_left_ne_empty _ (by decide)⟩, rfl,
    fun aid => rfl⟩

/-- Witness for C4 at a concrete unknown name. -/
theorem c4_unknown_start_witness :
    (start_activity { activityName := "POLISH" } 0 initState).1.activityId = "" ∧
    (∃ m, (start_activity { activityName := "POLISH" } 0 initState).1.errorMsg
        = some m ∧ m ≠ "") ∧
    (start_activity { activityName := "POLISH" } 0 initState).2 = initState ∧
    (∀ aid, get_activity_status aid
        (start_activity { activityName := "POLISH" } 0 initState).2
        = get_activity_status aid initState) :=
  c4_unknown_start { activityName := "POLISH" } 0 initState (by decide)

/-- C9: the data query answers 404 for an unknown id, the empty product
list with the fixed "Data not ready" error for a registered activity that
is not COMPLETED, and exactly the stored products with no error message for
a COMPLETED activity. -/
theorem c9_data_query (aid : String) (s : SimState) :
    (getActivity s aid = none → get_activity_data aid s = none) ∧
    (∀ st, getActivity s aid = some st → st.status ≠ "ACTIVITY_COMPLETED" →
       get_activity_data aid s
         = some { products := [], errorMsg := some "Data not ready" }) ∧
    (∀ st, getActivity s aid = some st → st.status = "ACTIVITY_COMPLETED" →
       get_activity_data aid s
         = some { products := st.products, errorMsg := none }) := by
  refine ⟨?_, ?_, ?_⟩
  · intro h
    rw [get_activity_data, h]
    rfl
  · intro st h hne
    rw [get_activity_data, h]
    dsimp only [Option.map]
    rw [if_pos hne]
  · intro st h hc
    rw [get_activity_data, h]
    dsimp only [Option.map]
    rw [if_neg (fun hx => hx hc)]

def opsC9 : List Op :=
  [Op.start reqBuild 0, Op.step1 "act_0001", Op.step2 "act_0001" 1]

/-- Witness for C9: all three branches at concrete states. -/
theorem c9_data_query_witness :
    get_activity_data "nosuch" initState = none ∧
    get_activity_data "act_0001" (runOps [Op.start reqBuild 0])
      = some { products := [], errorMsg := some "Data not ready" } ∧
    get_activity_data "act_0001" (runOps opsC9)
      = some { products := [mkUuid 0, mkUuid 1], errorMsg := none } :=
  ⟨(c9_data_query "nosuch" initState).1 (by decide),
   (c9_data_query "act_0001" (runOps [Op.start reqBuild 0])).2.1
     { activityId := "act_0001", activityName := "BUILD", timeBegin := 0 }
     (by decide) (by decide),
   (c9_data_query "act_0001" (runOps opsC9)).2.2
     { activityId := "act_0001", activityName := "BUILD",
       status := "ACTIVITY_COMPLETED", timeBegin := 0, timeEnd := some 1,
       products := [mkUuid 0, mkUuid 1], runPhase := 2 }
     (by decide) rfl⟩

/-- C5: canceling an unknown id is a 404 that leaves all state unchanged;
canceling a registered id is accepted and, whatever the record's current
state, immediately forces it to CANCELED with `timeEnd` stamped and the
supplied reason stored, publishing one status-change event carrying that
reason. -/
theorem c5_cancel_semantics (cmd : CancelActivityCmd) (now : Int) (s : SimState) :
    (getActivity s cmd.activityId = none →
       cancel_activity cmd now s = (CancelResp.notFound, s)) ∧
    (∀ st, getActivity s cmd.activityId = some st →
       (cancel_activity cmd now s).1 = CancelResp.accepted ∧
       getActivity (cancel_activity cmd now s).2 cmd.activityId =
         some { st with status := "ACTIVITY_CANCELED", timeEnd := some now,
                        statusMsg := some cmd.reason } ∧
       (cancel_activity cmd now s).2.events = s.events ++
         [⟨"InstrumentActivityStatusChange",
           [("activityId", JVal.str st.activityId),
            ("activityName", JVal.str st.activityName),
            ("activityStatus", JVal.str "ACTIVITY_CANCELED"),
            ("statusMsg", JVal.str cmd.reason)]⟩]) := by
  constructor
  · intro h
    rw [cancel_activity, h]
  · intro st h
    exact ⟨(cancel_known now h).1, (cancel_known now h).2.1,
      (cancel_known now h).2.2.1⟩

/-- Witness for C5: a 404 on the empty registry and a forced cancellation
of a freshly started activity. -/
theorem c5_cancel_semantics_witness :
    cancel_activity { activityId := "ghost", reason := "halt" } 3 initState
      = (CancelResp.notFound, initState) ∧
    (cancel_activity cmdStop 3 (runOps [Op.start reqBuild 0])).1
      = CancelResp.accepted ∧
    getActivity (cancel_activity cmdStop 3 (runOps [Op.start reqBuild 0])).2
        "act_0001"
      = some { activityId := "act_0001", activityName := "BUILD",
               status := "ACTIVITY_CANCELED", timeBegin := 0, timeEnd := some 3,
               statusMsg := some "operator stop" } :=
  ⟨(c5_cancel_semantics { activityId := "ghost", reason := "halt" } 3 initState).1
      (by decide),
   ((c5_cancel_semantics cmdStop 3 (runOps [Op.start reqBuild 0])).2
      { activityId := "act_0001", activityName := "BUILD", timeBegin := 0 }
      (by decide)).1,
   ((c5_cancel_semantics cmdStop 3 (runOps [Op.start reqBuild 0])).2
      { activityId := "act_0001", activityName := "BUILD", timeBegin := 0 }
      (by decide)).2.1⟩

end Simulator

namespace Simulator

/-- C6: when the second timed step of a started activity fires (its task is
at phase 1), it cancels with "Deadline exceeded", a stamped `timeEnd` and an
empty product list when a deadline was supplied and the current time has
passed it; otherwise it completes with a stamped `timeEnd` and exactly two
freshly generated, distinct product identifiers. -/
theorem c6_second_step (ops : List Op) (aid : String) (st : ActivityState)
    (now : Int) (h : getActivity (runOps ops) aid = some st)
    (hphase : st.runPhase = 1) :
    ∃ st2, getActivity (run_step2 aid now (runOps ops)) aid = some st2 ∧
      ((∃ d, st.deadline = some d ∧ now > d) →
         st2.status = "ACTIVITY_CANCELED" ∧
         st2.statusMsg = some "Deadline exceeded" ∧
         st2.timeEnd = some now ∧ st2.products = []) ∧
      (¬ (∃ d, st.deadline = some d ∧ now > d) →
         st2.status = "ACTIVITY_COMPLETED" ∧ st2.timeEnd = some now ∧
         st2.products = [mkUuid (runOps ops).uuidCounter,
                         mkUuid ((runOps ops).uuidCounter + 1)] ∧
         st2.products.length = 2 ∧ st2.products.Nodup) := by
  have hInv : ActInv st := inv_runOps ops _ (lookupA_mem h)
  have hprod : st.products = [] := hInv.early_products (by omega)
  rw [run_step2, h]
  dsimp only
  rw [if_pos hphase]
  cases hdl : st.deadline with
  | some d =>
    dsimp only
    by_cases hlate : now > d
    · rw [if_pos hlate]
      refine ⟨_, lookupA_update_self _ h, ?_, ?_⟩
      · intro _
        exact ⟨rfl, rfl, rfl, hprod⟩
      · intro hno
        exact absurd ⟨d, rfl, hlate⟩ hno
    · rw [if_neg hlate]
      refine ⟨_, lookupA_update_self _ h, ?_, ?_⟩
      · rintro ⟨d2, hd2, hl2⟩
        injection hd2 with hdd
        omega
      · intro _
        refine ⟨rfl, rfl, rfl, rfl, ?_⟩
        simp only [List.nodup_cons, List.mem_singleton, List.nodup_nil,
          and_true, not_false_iff]
        refine ⟨?_, by simp⟩
        intro hequ
        have := mkUuid_inj hequ
        omega
  | none =>
    dsimp only
    refine ⟨_, lookupA_update_self _ h, ?_, ?_⟩
    · rintro ⟨d2, hd2, hl2⟩
      exact Option.noConfusion hd2
    · intro _
      refine ⟨rfl, rfl, rfl, rfl, ?_⟩
      simp only [List.nodup_cons, List.mem_singleton, List.nodup_nil,
        and_true, not_false_iff]
      refine ⟨?_, by simp⟩
      intro hequ
      have := mkUuid_inj hequ
      omega

def opsC6 : List Op := [Op.start reqBuild 0, Op.step1 "act_0001"]

def stC6 : ActivityState :=
  { activityId := "act_0001", activityName := "BUILD",
    status := "ACTIVITY_IN_PROGRESS", timeBegin := 0, runPhase := 1 }

/-- Witness for C6: the step fires on a concrete in-progress activity. -/
theorem c6_second_step_witness :
    ∃ st2, getActivity (run_step2 "act_0001" 9 (runOps opsC6)) "act_0001"
        = some st2 ∧
      ((∃ d, stC6.deadline = some d ∧ (9 : Int) > d) →
         st2.status = "ACTIVITY_CANCELED" ∧
         st2.statusMsg = some "Deadline exceeded" ∧
         st2.timeEnd = some (9 : Int) ∧ st2.products = []) ∧
      (¬ (∃ d, stC6.deadline = some d ∧ (9 : Int) > d) →
         st2.status = "ACTIVITY_COMPLETED" ∧ st2.timeEnd = some (9 : Int) ∧
         st2.products = [mkUuid (runOps opsC6).uuidCounter,
                         mkUuid ((runOps opsC6).uuidCounter + 1)] ∧
         st2.products.length = 2 ∧ st2.products.Nodup) :=
  c6_second_step opsC6 "act_0001" stC6 9 (by decide) rfl

def opsC1 : List Op :=
  [Op.start reqBuild 0, Op.step1 "act_0001",
   Op.cancel { activityId := "act_0001", reason := "operator stop" } 1]

/-- C1 counterexample: after an explicit cancel between the two timer steps
the record is CANCELED, yet the still-pending second timer step then moves
it to COMPLETED; a timer-driven step does change a terminal status, and in
particular CANCELED becomes COMPLETED. -/
theorem c1_terminal_counterexample :
    ((getActivity (runOps opsC1) "act_0001").map (fun st => st.status))
        = some "ACTIVITY_CANCELED" ∧
    ((getActivity (run_step2 "act_0001" 2 (runOps opsC1)) "act_0001").map
        (fun st => st.status)) = some "ACTIVITY_COMPLETED" := by decide

/-- C1 amended: a COMPLETED record (only the final timer step produces one)
and a CANCELED record whose task has already finished are preserved by every
later timer step, and an explicit cancel overwrites any state to CANCELED.
The claim fails only for a CANCELED record whose timer steps are still
pending: those steps may overwrite the terminal state. -/
theorem c1_terminal_stability_amended (ops : List Op) (aid : String)
    (st : ActivityState) (h : getActivity (runOps ops) aid = some st)
    (hterm : st.status = "ACTIVITY_COMPLETED" ∨
             (st.status = "ACTIVITY_CANCELED" ∧ st.runPhase = 2)) :
    (∀ a2, getActivity (run_step1 a2 (runOps ops)) aid = some st) ∧
    (∀ a2 t2, getActivity (run_step2 a2 t2 (runOps ops)) aid = some st) ∧
    (∀ cmd t2, cmd.activityId = aid →
       getActivity (cancel_activity cmd t2 (runOps ops)).2 aid =
         some { st with status := "ACTIVITY_CANCELED", timeEnd := some t2,
                        statusMsg := some cmd.reason }) := by
  have hph : st.runPhase = 2 := by
    rcases hterm with hc | hc
    · exact (inv_runOps ops _ (lookupA_mem h)).completed_phase hc
    · exact hc.2
  refine ⟨fun a2 => run_step1_preserves_done h hph a2,
          fun a2 t2 => run_step2_preserves_done h hph a2 t2, ?_⟩
  intro cmd t2 hcmd
  have h2 : getActivity (runOps ops) cmd.activityId = some st := by
    rw [hcmd]
    exact h
  have h3 := (cancel_known t2 h2).2.1
  rw [hcmd] at h3
  exact h3

def opsC1w : List Op :=
  [Op.start reqBuild 0, Op.step1 "act_0001", Op.step2 "act_0001" 1]

def stC1w : ActivityState :=
  { activityId := "act_0001", activityName := "BUILD",
    status := "ACTIVITY_COMPLETED", timeBegin := 0, timeEnd := some 1,
    products := [mkUuid 0, mkUuid 1], runPhase := 2 }

/-- Witness for the amended C1 at a concrete completed activity. -/
theorem c1_terminal_stability_amended_witness :
    getActivity (run_step1 "act_0001" (runOps opsC1w)) "act_0001" = some stC1w ∧
    getActivity (run_step2 "act_0001" 9 (runOps opsC1w)) "act_0001" = some stC1w ∧
    getActivity (cancel_activity { activityId := "act_0001", reason := "halt" } 9
        (runOps opsC1w)).2 "act_0001" =
      some { stC1w with status := "ACTIVITY_CANCELED", timeEnd := some 9,
                        statusMsg := some "halt" } :=
  ⟨(c1_terminal_stability_amended opsC1w "act_0001" stC1w (by decide)
      (Or.inl rfl)).1 "act_0001",
   (c1_terminal_stability_amended opsC1w "act_0001" stC1w (by decide)
      (Or.inl rfl)).2.1 "act_0001" 9,
   (c1_terminal_stability_amended opsC1w "act_0001" stC1w (by decide)
      (Or.inl rfl)).2.2 { activityId := "act_0001", reason := "halt" } 9 rfl⟩

def opsC2 : List Op :=
  [Op.start reqBuild 0, Op.step1 "act_0001", Op.step2 "act_0001" 1,
   Op.cancel { activityId := "act_0001", reason := "operator stop" } 2]

/-- C2 counterexample: an activity that completed (acquiring two products)
and was then explicitly canceled ends CANCELED with a non-empty products
list, so non-empty products is not equivalent to status COMPLETED. -/
theorem c2_products_iff_counterexample :
    ((getActivity (runOps opsC2) "act_0001").map
        (fun st => (st.status, st.products.length))) =
      some ("ACTIVITY_CANCELED", 2) := by decide

/-- C2 amended: in every reachable state, COMPLETED implies exactly two
products (so in particular non-empty), and non-empty products imply status
COMPLETED or CANCELED; the CANCELED case arises when an explicit cancel
overwrites a completed activity, which is where the claimed equivalence
fails. -/
theorem c2_products_amended (ops : List Op) (aid : String) (st : ActivityState)
    (h : getActivity (runOps ops) aid = some st) :
    (st.status = "ACTIVITY_COMPLETED" →
       st.products ≠ [] ∧ st.products.length = 2) ∧
    (st.products ≠ [] →
       st.status = "ACTIVITY_COMPLETED" ∨ st.status = "ACTIVITY_CANCELED") := by
  have hInv := inv_runOps ops _ (lookupA_mem h)
  constructor
  · intro hc
    have hl := hInv.completed_products hc
    refine ⟨?_, hl⟩
    intro hnil
    rw [hnil] at hl
    simp at hl
  · exact hInv.products_terminal

/-- Witness for the amended C2 at a concrete completed activity. -/
theorem c2_products_amended_witness :
    (stC1w.status = "ACTIVITY_COMPLETED" →
       stC1w.products ≠ [] ∧ stC1w.products.length = 2) ∧
    (stC1w.products ≠ [] →
       stC1w.status = "ACTIVITY_COMPLETED" ∨ stC1w.status = "ACTIVITY_CANCELED") :=
  c2_products_amended opsC1w "act_0001" stC1w (by decide)

def opsC7 : List Op :=
  [Op.start reqBuild 0,
   Op.cancel { activityId := "act_0001", reason := "operator stop" } 1,
   Op.step1 "act_0001"]

/-- C7 counterexample: an explicit cancel before the first timer step stamps
`timeEnd`; the still-pending first step then rewrites the status back to
IN_PROGRESS, leaving a non-terminal record with `timeEnd` set, so the
if-and-only-if fails. -/
theorem c7_timeEnd_counterexample :
    ((getActivity (runOps opsC7) "act_0001").map
        (fun st => (st.status, st.timeEnd))) =
      some ("ACTIVITY_IN_PROGRESS", some 1) := by decide

/-- C7 amended: in every reachable state a terminal record has `timeEnd`
set; the converse direction of the claim fails, as the counterexample
shows. -/
theorem c7_timeEnd_amended (ops : List Op) (aid : String) (st : ActivityState)
    (h : getActivity (runOps ops) aid = some st)
    (hterm : st.status = "ACTIVITY_COMPLETED" ∨ st.status = "ACTIVITY_CANCELED") :
    st.timeEnd.isSome = true :=
  (inv_runOps ops _ (lookupA_mem h)).terminal_timeEnd hterm

/-- Witness for the amended C7 at a concrete completed activity. -/
theorem c7_timeEnd_amended_witness : stC1w.timeEnd.isSome = true :=
  c7_timeEnd_amended opsC1w "act_0001" stC1w (by decide) (Or.inl rfl)

end Simulator

namespace Simulator

/-- C8: along any trace, every id returned by a successful start call is
non-empty and equals `act_` followed by the zero-padded rendering of a
counter value; the counter values consumed by successive successful calls
strictly increase, and the returned ids are pairwise distinct for the whole
process lifetime. -/
theorem c8_start_ids (ops : List Op) :
    (∀ a ∈ traceStartIds initState ops,
        a ≠ "" ∧ ∃ n, a = formatActivityId n) ∧
    (traceStartNums initState ops).Pairwise (· < ·) ∧
    traceStartIds initState ops
      = (traceStartNums initState ops).map formatActivityId ∧
    (traceStartIds initState ops).Pairwise (· ≠ ·) := by
  refine ⟨?_, traceStartNums_pairwise ops initState,
          traceStartIds_eq_map ops initState, ?_⟩
  · intro a ha
    rw [traceStartIds_eq_map ops initState] at ha
    obtain ⟨n, hn, hfn⟩ := List.mem_map.mp ha
    exact ⟨hfn ▸ formatActivityId_ne_empty n, n, hfn.symm⟩
  · rw [traceStartIds_eq_map ops initState, List.pairwise_map]
    refine List.Pairwise.imp ?_ (traceStartNums_pairwise ops initState)
    intro a b hab hfab
    have := formatActivityId_inj hfab
    omega

def opsC8 : List Op :=
  [Op.start reqBuild 0, Op.start { activityName := "SCAN" } 1]

/-- Witness for C8 on a concrete two-start trace. -/
theorem c8_start_ids_witness :
    ("act_0001" ≠ "" ∧ ∃ n, "act_0001" = formatActivityId n) ∧
    (traceStartIds initState opsC8).Pairwise (· ≠ ·) :=
  ⟨(c8_start_ids opsC8).1 "act_0001" (by decide), (c8_start_ids opsC8).2.2.2⟩

def reqBadDeadline : StartActivityReq :=
  { activityName := "BUILD", activityDeadline := some "not-a-date" }

def opsC10 : List Op :=
  [Op.start reqBuild 0, Op.start reqBadDeadline 1, Op.start reqBuild 2]

/-- C10: a start request with a known activity name whose deadline string
fails to parse returns the empty id with a non-empty error message and
registers nothing, yet the counter was already bumped before the deadline
validation, so one `act_NNNN` number is permanently consumed: successful
ids stay strictly increasing but need not be consecutive, as the concrete
trace shows (`act_0002` is skipped). -/
theorem c10_failed_start_consumes_number :
    (∀ (req : StartActivityReq) (now : Int) (s : SimState) (ds : String),
       req.activityName ∈ ACTIVITIES → req.activityDeadline = some ds →
       ds ≠ "" → isoparse ds = none →
       (start_activity req now s).1.activityId = "" ∧
       (∃ m, (start_activity req now s).1.errorMsg = some m ∧ m ≠ "") ∧
       (start_activity req now s).2.activities = s.activities ∧
       (start_activity req now s).2.nextActivityNum = s.nextActivityNum + 1) ∧
    traceStartIds initState opsC10 = ["act_0001", "act_0003"] := by
  constructor
  · intro req now s ds hmem hD hne hiso
    rw [start_activity, if_pos hmem]
    dsimp only
    rw [hD]
    dsimp only
    simp only [if_pos hne, hiso]
    dsimp only [Option.map]
    exact ⟨rfl, ⟨_, rfl, string_append_left_ne_empty _ (by decide)⟩, rfl, rfl⟩
  · decide

/-- Witness for C10 at the concrete unparsable deadline string. -/
theorem c10_failed_start_consumes_number_witness :
    (start_activity reqBadDeadline 1 initState).1.activityId = "" ∧
    (∃ m, (start_activity reqBadDeadline 1 initState).1.errorMsg
        = some m ∧ m ≠ "") ∧
    (start_activity reqBadDeadline 1 initState).2.activities
      = initState.activities ∧
    (start_activity reqBadDeadline 1 initState).2.nextActivityNum
      = initState.nextActivityNum + 1 :=
  c10_failed_start_consumes_number.1 reqBadDeadline 1 initState "not-a-date"
    (by decide) rfl (by decide) (by decide)

end Simulator
